import Mathlib

/-!
Verification of the Atomic Life habit dashboard.

The development shallowly embeds the relevant parts of the repository:

* `src/src/lib/time-utils.ts` — window evaluation, greeting buckets and
  the countdown to the next morning window.  The implicit `new Date()`
  reads are made explicit: every function takes the current
  minutes-since-midnight (or the current hour) as an argument.
* the `ProgressGrid` component — date normalization
  (`normalizeToYYYYMMDD`) and the history merge performed inside
  `fetchData` (summary rows + reading-log rows → ordered `DayData`
  records with a dynamically derived rating).

JavaScript `Date` parsing is abstracted as an explicit
`parse : String → Option JSDate` argument (`none` models an invalid
date, `some d` a parsed instant together with its local calendar
fields).  JavaScript falsy-coalescing (`x || false`, `x || 'missed'`)
is modelled by `jsOrFalse` / `jsOrMissed`, and the default
`Array.prototype.sort()` on the date keys by lexicographic string
order.
-/

namespace AtomicLife

/-! Embedding of time-utils.ts -/

/-- Convert hours/minutes to minutes from midnight (`toMinutes`). -/
def toMinutes (hours minutes : Nat) : Nat :=
  hours * 60 + minutes

/-- Constant `TIME_WINDOWS.morning.defaultStart` = 05:45. -/
def defaultStart : Nat := toMinutes 5 45

/-- Constant `TIME_WINDOWS.morning.defaultEnd` = 06:15. -/
def defaultEnd : Nat := toMinutes 6 15

/-- Constant `TIME_WINDOWS.morning.fallbackStart` = 07:15 (Meeting Mode fallback). -/
def fallbackStart : Nat := toMinutes 7 15

/-- Constant `TIME_WINDOWS.morning.fallbackEnd` = 07:45. -/
def fallbackEnd : Nat := toMinutes 7 45

/-- One entry of `TIME_WINDOWS.greetings`. -/
structure GreetingRule where
  startHour : Nat
  endHour : Nat
  identity : String
deriving DecidableEq

/-- Constant `TIME_WINDOWS.greetings`. -/
def greetings : List GreetingRule :=
  [⟨5, 8, "Athlete"⟩, ⟨8, 18, "Engineer"⟩, ⟨18, 22, "Scholar"⟩,
   ⟨22, 24, "Recover"⟩, ⟨0, 5, "Recover"⟩]

/-- Result record of `isWithinTimeWindow`. -/
structure WindowResult where
  inWindow : Bool
  state : String
deriving DecidableEq

/-- Function `isWithinTimeWindow`, with the current minutes-since-midnight made
an explicit argument. -/
def isWithinTimeWindow (currentMinutes : Nat) (isMeetingMode : Bool) : WindowResult :=
  let window :=
    if isMeetingMode then (fallbackStart, fallbackEnd) else (defaultStart, defaultEnd)
  if window.1 ≤ currentMinutes ∧ currentMinutes ≤ window.2 then
    ⟨true, if isMeetingMode then "fallback" else "active"⟩
  else
    ⟨false, "missed"⟩

/-- The coarse time-of-day bucket computed inline in `getGreeting`:
`Morning` for 5–11, `Afternoon` for 12–16, then `Evening` whenever the
hour is below 22, and `Night` otherwise. -/
def timeOfDayBucket (currentHour : Nat) : String :=
  if 5 ≤ currentHour ∧ currentHour < 12 then "Morning"
  else if 12 ≤ currentHour ∧ currentHour < 17 then "Afternoon"
  else if currentHour < 22 then "Evening"
  else "Night"

/-- Function `getGreeting`, with the current hour made an explicit argument. -/
def getGreeting (currentHour : Nat) : String :=
  let greeting :=
    greetings.find? (fun g => decide (g.startHour ≤ currentHour ∧ currentHour < g.endHour))
  "Good " ++ timeOfDayBucket currentHour ++ ", " ++
    ((greeting.map GreetingRule.identity).getD ("Friend")) ++ "."

/-- Result record of `getTimeUntilNextWindow`. -/
structure CountdownResult where
  hours : Nat
  minutes : Nat
  isTomorrow : Bool
deriving DecidableEq

/-- The `window` binding of `getTimeUntilNextWindow`: the start minute
of the selected window. -/
def windowStart (isMeetingMode : Bool) : Nat :=
  if isMeetingMode then fallbackStart else defaultStart

/-- Function `getTimeUntilNextWindow`, with the current minutes-since-midnight
made an explicit argument. -/
def getTimeUntilNextWindow (currentMinutes : Nat) (isMeetingMode : Bool) : CountdownResult :=
  let window := windowStart isMeetingMode
  if currentMinutes < window then
    let diff := window - currentMinutes
    ⟨diff / 60, diff % 60, false⟩
  else
    let minutesUntilMidnight := 24 * 60 - currentMinutes
    let diff := minutesUntilMidnight + window
    ⟨diff / 60, diff % 60, true⟩

/-! Embedding of the date normalization in ProgressGrid -/

/-- A JavaScript `Date` instant, exposing its local calendar fields
(`getFullYear`, `getMonth()+1`, `getDate`, `getHours`, `getMinutes`)
and, separately, its UTC calendar fields.  The code under verification
only ever reads the local fields. -/
structure JSDate where
  localYear : Nat
  localMonth : Nat
  localDay : Nat
  localHour : Nat
  localMinute : Nat
  utcYear : Nat
  utcMonth : Nat
  utcDay : Nat
deriving DecidableEq

/-- The `Date | string` argument of `normalizeToYYYYMMDD`. -/
inductive DateInput where
  | str (s : String)
  | dateObj (d : JSDate)

/-- Model of `String.prototype.padStart(targetLen, c)`. -/
def padStart (s : String) (targetLen : Nat) (c : Char) : String :=
  String.mk (List.replicate (targetLen - s.length) c) ++ s

/-- The regex test `/^\d\x7b4\x7d-\d\x7b2\x7d-\d\x7b2\x7d$/.test(s)`:
exactly four digits, a dash, two digits, a dash, two digits. -/
def isYYYYMMDD (s : String) : Bool :=
  match s.data with
  | [c0, c1, c2, c3, c4, c5, c6, c7, c8, c9] =>
      c0.isDigit && c1.isDigit && c2.isDigit && c3.isDigit && (c4 == '-') &&
      c5.isDigit && c6.isDigit && (c7 == '-') && c8.isDigit && c9.isDigit
  | _ => false

/-- The template `year-month-day` with month and day zero-padded to
two characters (`padStart(2, '0')`). -/
def fmtLocal (year month day : Nat) : String :=
  toString year ++ "-" ++ padStart (toString month) 2 '0' ++ "-" ++
    padStart (toString day) 2 '0'

/-- Function `normalizeToYYYYMMDD`.  `parse` models `new Date(s)` together with
the `isNaN(d.getTime())` validity check: `none` for an unparseable
string, `some d` for a parsed instant with local fields `d`. -/
def normalizeToYYYYMMDD (parse : String → Option JSDate) : DateInput → String
  | .str s =>
      if isYYYYMMDD s then s
      else
        match parse s with
        | some d => fmtLocal d.localYear d.localMonth d.localDay
        | none => s
  | .dateObj d => fmtLocal d.localYear d.localMonth d.localDay

/-! Embedding of the history merge in the `fetchData` of ProgressGrid -/

/-- A raw `daily_summaries` row, with the nullable columns the merge
reads.  `day_rating` is kept as an arbitrary string (the persisted
schema constrains it to `perfect | partial | missed | meeting`). -/
structure SummaryRow where
  date : String
  day_rating : Option String
  meeting_mode : Option Bool
  morning_stack_complete : Option Bool
  evening_stack_complete : Option Bool
deriving DecidableEq

/-- The component's `DayData` record.  `rating` is `Option String`:
the TypeScript annotation says `perfect | partial | missed | null`,
but at runtime the field holds whatever string the cast let through. -/
structure DayData where
  date : String
  rating : Option String
  meetingMode : Bool
  morningStackComplete : Bool
  eveningStackComplete : Bool
  hasReadingLog : Bool
deriving DecidableEq

/-- JavaScript `x || false` on a boolean-or-null column. -/
def jsOrFalse : Option Bool → Bool
  | some b => b
  | none => false

/-- JavaScript `day.rating || 'missed'`: both `null` and the empty
string are falsy. -/
def jsOrMissed : Option String → String
  | some r => if r = "" then "missed" else r
  | none => "missed"

/-- The `readingLogDatesSet`: every reading-log date normalized, with
duplicates collapsed (a JS `Set`; only membership and the later sort
observe it, so the dedup order is immaterial). -/
def readingLogDates (parse : String → Option JSDate) (logRows : List String) : List String :=
  (logRows.map (fun d => normalizeToYYYYMMDD parse (.str d))).dedup

/-- One assignment `summariesMap[normalizedDate] = {...}`. -/
def summaryEntry (parse : String → Option JSDate) (readingDates : List String)
    (s : SummaryRow) : String × DayData :=
  let normalizedDate := normalizeToYYYYMMDD parse (.str s.date)
  (normalizedDate,
   { date := normalizedDate
     rating := s.day_rating
     meetingMode := jsOrFalse s.meeting_mode
     morningStackComplete := jsOrFalse s.morning_stack_complete
     eveningStackComplete := jsOrFalse s.evening_stack_complete
     hasReadingLog := readingDates.contains normalizedDate })

/-- The `summariesMap` as its assignment history: later assignments to
the same key override earlier ones. -/
def summariesMap (parse : String → Option JSDate) (readingDates : List String)
    (rows : List SummaryRow) : List (String × DayData) :=
  rows.map (summaryEntry parse readingDates)

/-- Reading `summariesMap[k]`: the value of the last assignment to `k`,
if any. -/
def mapLookup (pairs : List (String × DayData)) (k : String) : Option DayData :=
  (pairs.reverse.find? (fun p => p.1 == k)).map Prod.snd

/-- Model of `Array.from(allDatesSet).sort()`: the union of the summary keys and
the reading-log dates, sorted lexicographically. -/
def allDatesSorted (pairs : List (String × DayData)) (readingDates : List String) :
    List String :=
  List.insertionSort (· ≤ ·) ((pairs.map Prod.fst ++ readingDates).dedup)

/-- The record synthesized for a date that has a reading log but no
summary row. -/
def readingOnlyRecord (date : String) : DayData :=
  { date := date
    rating := some ("partial")
    meetingMode := false
    morningStackComplete := false
    eveningStackComplete := false
    hasReadingLog := true }

/-- Binding `combinedData`: one record per date in the union, the summary
record when one exists and the synthesized reading-only record
otherwise. -/
def combinedData (parse : String → Option JSDate) (summaryRows : List SummaryRow)
    (logRows : List String) : List DayData :=
  (allDatesSorted (summariesMap parse (readingLogDates parse logRows) summaryRows)
      (readingLogDates parse logRows)).map (fun date =>
    match mapLookup (summariesMap parse (readingLogDates parse logRows) summaryRows)
        date with
    | some dd => dd
    | none => readingOnlyRecord date)

/-- The dynamic-rating override applied to each merged record
(`calculatedData`). -/
def applyDerivedRating (day : DayData) : DayData :=
  let isPerfect := day.morningStackComplete && day.eveningStackComplete
  let hasPartialHabit := day.morningStackComplete || day.eveningStackComplete
  let isPartial := hasPartialHabit || day.hasReadingLog
  { day with
      rating := some (if isPerfect then "perfect"
                      else if isPartial then "partial"
                      else jsOrMissed day.rating) }

/-- The full history merge of `fetchData` (`calculatedData`), from the
raw summary rows and the raw reading-log date strings. -/
def buildHistory (parse : String → Option JSDate) (summaryRows : List SummaryRow)
    (logRows : List String) : List DayData :=
  (combinedData parse summaryRows logRows).map applyDerivedRating

/-! Spec-side derivations, for comparison with the code -/

/-- The rating derivation exactly as claim C1 words it: `perfect` iff
both stacks complete, else `partial` iff either stack is complete or a
reading log exists, else `missed`. -/
def claimedDeriveDayRating (morning evening reading : Bool) : String :=
  if morning && evening then "perfect"
  else if morning || evening || reading then "partial"
  else "missed"

/-- The amended rating derivation: as claim C1, except that in the
final branch the persisted `day_rating` is emitted verbatim whenever
it is non-null and non-empty, with `missed` only as the default for a
null or empty persisted value. -/
def amendedDeriveDayRating (morning evening reading : Bool) (persisted : Option String) :
    String :=
  if morning && evening then "perfect"
  else if morning || evening || reading then "partial"
  else
    match persisted with
    | some r => if r ≠ "" then r else "missed"
    | none => "missed"

/-! Theorems about the time utilities -/

/-- Unfolding lemma for `isWithinTimeWindow` over the selected window. -/
theorem isWithinTimeWindow_eq (m : Nat) (mode : Bool) :
    isWithinTimeWindow m mode =
      if (if mode then fallbackStart else defaultStart) ≤ m ∧
         m ≤ (if mode then fallbackEnd else defaultEnd) then
        ⟨true, if mode then "fallback" else "active"⟩
      else ⟨false, "missed"⟩ := by
  cases mode <;> rfl

/-- Claim C5: the window evaluator reports `inWindow = true` exactly on
the closed interval of the selected window (primary 05:45–06:15,
fallback 07:15–07:45), with state `fallback` in meeting mode and
`active` otherwise, and `⟨false, "missed"⟩` outside it; boundary
minutes 345 and 375 are inside the primary window, 344 and 376 are
outside, and minute 450 in meeting mode yields `⟨true, "fallback"⟩`. -/
theorem window_evaluation (m : Nat) (mode : Bool) :
    ((isWithinTimeWindow m mode).inWindow = true ↔
       (if mode then fallbackStart else defaultStart) ≤ m ∧
       m ≤ (if mode then fallbackEnd else defaultEnd)) ∧
    ((isWithinTimeWindow m mode).inWindow = true →
       (isWithinTimeWindow m mode).state = if mode then "fallback" else "active") ∧
    ((isWithinTimeWindow m mode).inWindow = false →
       isWithinTimeWindow m mode = ⟨false, "missed"⟩) ∧
    defaultStart = 345 ∧ defaultEnd = 375 ∧ fallbackStart = 435 ∧ fallbackEnd = 465 ∧
    isWithinTimeWindow 345 false = ⟨true, "active"⟩ ∧
    isWithinTimeWindow 375 false = ⟨true, "active"⟩ ∧
    (isWithinTimeWindow 344 false).inWindow = false ∧
    (isWithinTimeWindow 376 false).inWindow = false ∧
    isWithinTimeWindow 450 true = ⟨true, "fallback"⟩ := by
  refine ⟨?_, ?_, ?_, rfl, rfl, rfl, rfl, by decide, by decide, by decide, by decide,
    by decide⟩ <;>
  · rw [isWithinTimeWindow_eq]
    by_cases hc : (if mode then fallbackStart else defaultStart) ≤ m ∧
        m ≤ (if mode then fallbackEnd else defaultEnd)
    · rw [if_pos hc]
      simp_all
    · rw [if_neg hc]
      simp_all

/-- Witness for C5 at the concrete fallback-window instant 07:30. -/
theorem window_evaluation_witness :
    isWithinTimeWindow 450 true = ⟨true, "fallback"⟩ :=
  (window_evaluation 450 true).2.2.2.2.2.2.2.2.2.2.2

/-- Unfolding lemma for `getTimeUntilNextWindow` over the selected
window start. -/
theorem getTimeUntilNextWindow_eq (m : Nat) (mode : Bool) :
    getTimeUntilNextWindow m mode =
      if m < windowStart mode then
        ⟨(windowStart mode - m) / 60, (windowStart mode - m) % 60, false⟩
      else
        ⟨((1440 - m) + windowStart mode) / 60, ((1440 - m) + windowStart mode) % 60,
         true⟩ :=
  rfl

/-- Claim C6: before the selected window's start the countdown is
`start − m` minutes with `isTomorrow = false`; from the start onwards
it is `(1440 − m) + start` minutes with `isTomorrow = true`; the total
is split as `hours = total / 60`, `minutes = total % 60`; and at 07:00
with the primary window the result is `⟨22, 45, true⟩`. -/
theorem countdown_formula (m : Nat) (mode : Bool) (_hm : m < 1440) :
    (m < windowStart mode → getTimeUntilNextWindow m mode =
       ⟨(windowStart mode - m) / 60, (windowStart mode - m) % 60, false⟩) ∧
    (windowStart mode ≤ m → getTimeUntilNextWindow m mode =
       ⟨((1440 - m) + windowStart mode) / 60, ((1440 - m) + windowStart mode) % 60,
        true⟩) ∧
    (getTimeUntilNextWindow m mode).hours * 60 + (getTimeUntilNextWindow m mode).minutes =
      (if m < windowStart mode then windowStart mode - m
       else (1440 - m) + windowStart mode) ∧
    getTimeUntilNextWindow 420 false = ⟨22, 45, true⟩ := by
  refine ⟨?_, ?_, ?_, by decide⟩
  · intro h
    rw [getTimeUntilNextWindow_eq, if_pos h]
  · intro h
    rw [getTimeUntilNextWindow_eq, if_neg (Nat.not_lt.mpr h)]
  · rw [getTimeUntilNextWindow_eq]
    by_cases hlt : m < windowStart mode
    · rw [if_pos hlt, if_pos hlt]
      dsimp only
      omega
    · rw [if_neg hlt, if_neg hlt]
      dsimp only
      omega

/-- Witness for C6 at the spec's literal instant 07:00. -/
theorem countdown_formula_witness :
    getTimeUntilNextWindow 420 false = ⟨22, 45, true⟩ :=
  (countdown_formula 420 false (by decide)).2.2.2

/-- Claim C10: at the selected window's exact start minute the
countdown is `⟨24, 0, true⟩` (the hours field exceeds 23), the total
countdown `hours * 60 + minutes` is strictly positive for every
instant, and that same start minute evaluates as inside the window. -/
theorem countdown_at_window_start (m : Nat) (mode : Bool) (hm : m < 1440) :
    getTimeUntilNextWindow (windowStart mode) mode = ⟨24, 0, true⟩ ∧
    0 < (getTimeUntilNextWindow m mode).hours * 60 +
        (getTimeUntilNextWindow m mode).minutes ∧
    (isWithinTimeWindow (windowStart mode) mode).inWindow = true := by
  refine ⟨?_, ?_, ?_⟩
  · cases mode <;> decide
  · rw [getTimeUntilNextWindow_eq]
    have hw : 0 < windowStart mode := by cases mode <;> decide
    by_cases hlt : m < windowStart mode
    · rw [if_pos hlt]
      dsimp only
      omega
    · rw [if_neg hlt]
      dsimp only
      omega
  · cases mode <;> decide

/-- Witness for C10 at midnight in primary mode. -/
theorem countdown_at_window_start_witness :
    getTimeUntilNextWindow (windowStart false) false = ⟨24, 0, true⟩ :=
  (countdown_at_window_start 0 false (by decide)).1

/-- Counterexample to claim C8: at hour 3 the bucket is `Evening`,
not `Night`. -/
theorem night_bucket_counterexample :
    timeOfDayBucket 3 = "Evening" ∧ timeOfDayBucket 3 ≠ "Night" := by
  exact ⟨rfl, by decide⟩

/-- Claim C8 as amended: the bucket is `Morning` for hours 5–11,
`Afternoon` for 12–16, `Evening` for hours 17–21 and also 0–4, and
`Night` only for hours 22–23. -/
theorem time_of_day_buckets (h : Nat) (hh : h < 24) :
    timeOfDayBucket h =
      if 5 ≤ h ∧ h < 12 then "Morning"
      else if 12 ≤ h ∧ h < 17 then "Afternoon"
      else if h < 5 ∨ (17 ≤ h ∧ h < 22) then "Evening"
      else "Night" := by
  interval_cases h <;> decide

/-- Witness for the amended C8 at hour 22. -/
theorem time_of_day_buckets_witness :
    timeOfDayBucket 22 = "Night" :=
  (time_of_day_buckets 22 (by decide)).trans (by decide)

/-! Theorems about date normalization -/

/-- Claim C7: an input already matching `YYYY-MM-DD` passes through
unchanged; any other parseable input becomes the zero-padded string of
its local year, month and day fields; an unparseable input is returned
unmodified; a `Date` input always uses its local fields, so the
instant 2026-02-21 23:50 local normalizes to `"2026-02-21"` even
though its UTC day is the 22nd. -/
theorem normalize_date_spec (parse : String → Option JSDate) (s : String)
    (d dd : JSDate) :
    (isYYYYMMDD s = true → normalizeToYYYYMMDD parse (.str s) = s) ∧
    (isYYYYMMDD s = false → parse s = some dd →
       normalizeToYYYYMMDD parse (.str s) =
         fmtLocal dd.localYear dd.localMonth dd.localDay) ∧
    (isYYYYMMDD s = false → parse s = none →
       normalizeToYYYYMMDD parse (.str s) = s) ∧
    normalizeToYYYYMMDD parse (.dateObj d) =
      fmtLocal d.localYear d.localMonth d.localDay ∧
    normalizeToYYYYMMDD (fun _ => none)
      (.dateObj ⟨2026, 2, 21, 23, 50, 2026, 2, 22⟩) = "2026-02-21" := by
  refine ⟨?_, ?_, ?_, rfl, rfl⟩
  · intro h1
    simp [normalizeToYYYYMMDD, h1]
  · intro h1 h2
    simp [normalizeToYYYYMMDD, h1, h2]
  · intro h1 h2
    simp [normalizeToYYYYMMDD, h1, h2]

/-- Witness for C7 on a well-formed literal date string. -/
theorem normalize_date_spec_witness :
    normalizeToYYYYMMDD (fun _ => none) (.str ("2026-02-21")) = "2026-02-21" :=
  (normalize_date_spec (fun _ => none) ("2026-02-21")
    ⟨2026, 2, 21, 23, 50, 2026, 2, 22⟩ ⟨2026, 2, 21, 23, 50, 2026, 2, 22⟩).1
    (by decide)

/-! Theorems about the history merge -/

/-- The dynamic-rating override computes exactly the amended C1
derivation. -/
theorem applyDerivedRating_eq_amended (day : DayData) :
    applyDerivedRating day =
      { day with
          rating := some (amendedDeriveDayRating day.morningStackComplete
            day.eveningStackComplete day.hasReadingLog day.rating) } := by
  obtain ⟨date, rating, mm, morning, evening, reading⟩ := day
  cases morning <;> cases evening <;> cases reading <;> rcases rating with _ | r <;>
    simp [applyDerivedRating, amendedDeriveDayRating, jsOrMissed, ne_eq, ite_not]

/-- Claim C1 as amended: every output record's rating is `perfect` iff
both stacks are complete, else `partial` iff either stack is complete
or a reading log exists; otherwise the persisted `day_rating` is
emitted verbatim when non-null and non-empty, with `missed` only as
the default for a null or empty persisted value — the all-false
boolean case cannot be told apart from absent boolean data, since the
nullable columns are coalesced to `false`. -/
theorem derived_rating_override (parse : String → Option JSDate)
    (rows : List SummaryRow) (logs : List String) :
    buildHistory parse rows logs =
      (combinedData parse rows logs).map (fun day =>
        { day with
            rating := some (amendedDeriveDayRating day.morningStackComplete
              day.eveningStackComplete day.hasReadingLog day.rating) }) := by
  unfold buildHistory
  exact List.map_congr_left (fun day _ => applyDerivedRating_eq_amended day)

/-- Counterexample to claim C1 as stated: a summary row whose boolean
columns are explicitly present (all `false`) and whose persisted
`day_rating` is `perfect` is emitted with rating `perfect`, although
the claimed derivation yields `missed` for that day. -/
theorem derived_rating_override_counterexample :
    (buildHistory (fun _ => none)
        [{ date := "2026-01-01", day_rating := some ("perfect"),
           meeting_mode := some false, morning_stack_complete := some false,
           evening_stack_complete := some false }] []).map DayData.rating
      = [some ("perfect")] ∧
    claimedDeriveDayRating false false false = "missed" ∧
    some ("perfect") ≠ some (claimedDeriveDayRating false false false) := by
  exact ⟨rfl, rfl, by decide⟩

/-- Claim C2's failing input evaluated: a summary row with persisted
`day_rating = "meeting"` and no boolean signal flows through the merge
into the output rating, which is therefore outside the three
enumerated values. -/
theorem meeting_rating_leaks :
    (buildHistory (fun _ => none)
        [{ date := "2026-01-01", day_rating := some ("meeting"),
           meeting_mode := some false, morning_stack_complete := some false,
           evening_stack_complete := some false }] []).map DayData.rating
      = [some ("meeting")] ∧
    ("meeting" : String) ∉ (["perfect", "partial", "missed"] : List String) := by
  exact ⟨rfl, by decide⟩

/-- A successful `summariesMap` lookup returns a record whose `date`
field is the looked-up key. -/
theorem mapLookup_date {parse : String → Option JSDate} {rds : List String}
    {rows : List SummaryRow} {k : String} {dd : DayData}
    (h : mapLookup (summariesMap parse rds rows) k = some dd) : dd.date = k := by
  unfold mapLookup at h
  rcases hf : (summariesMap parse rds rows).reverse.find? (fun p => p.1 == k) with _ | q
  · rw [hf] at h
    exact Option.noConfusion h
  · rw [hf] at h
    have h2 : q.2 = dd := Option.some.inj h
    have hq := List.find?_some hf
    have hmem := List.mem_of_find?_eq_some hf
    rw [List.mem_reverse] at hmem
    unfold summariesMap at hmem
    rw [List.mem_map] at hmem
    obtain ⟨row, _, hrow⟩ := hmem
    have hdate : q.2.date = q.1 := by
      rw [← hrow]
      rfl
    have hk : q.1 = k := by
      simpa using hq
    rw [← h2, hdate, hk]

/-- The rating override leaves the `date` field untouched. -/
theorem applyDerivedRating_date (day : DayData) :
    (applyDerivedRating day).date = day.date :=
  rfl

/-- The dates of the merged output are exactly the sorted, deduplicated
union of the summary keys and the reading-log dates. -/
theorem buildHistory_dates (parse : String → Option JSDate)
    (rows : List SummaryRow) (logs : List String) :
    (buildHistory parse rows logs).map DayData.date =
      allDatesSorted (summariesMap parse (readingLogDates parse logs) rows)
        (readingLogDates parse logs) := by
  unfold buildHistory combinedData
  rw [List.map_map, List.map_map]
  have h1 : ∀ k ∈ allDatesSorted
        (summariesMap parse (readingLogDates parse logs) rows)
        (readingLogDates parse logs),
      ((DayData.date ∘ applyDerivedRating) ∘ fun date =>
        match mapLookup (summariesMap parse (readingLogDates parse logs) rows)
            date with
        | some dd => dd
        | none => readingOnlyRecord date) k = id k := by
    intro k _
    simp only [Function.comp_apply, applyDerivedRating_date, id]
    rcases hl : mapLookup (summariesMap parse (readingLogDates parse logs) rows) k
        with _ | dd
    · rfl
    · exact mapLookup_date hl
  rw [List.map_congr_left h1, List.map_id]

/-- Claim C9: the merge output is ordered by date ascending, each date
key occurs exactly once, and the key set is exactly the union of the
normalized summary-row keys and the normalized reading-log dates. -/
theorem history_keys (parse : String → Option JSDate)
    (rows : List SummaryRow) (logs : List String) :
    ((buildHistory parse rows logs).map DayData.date).Sorted (· ≤ ·) ∧
    ((buildHistory parse rows logs).map DayData.date).Nodup ∧
    ∀ k : String,
      k ∈ (buildHistory parse rows logs).map DayData.date ↔
        (k ∈ (summariesMap parse (readingLogDates parse logs) rows).map Prod.fst ∨
         k ∈ readingLogDates parse logs) := by
  rw [buildHistory_dates]
  unfold allDatesSorted
  refine ⟨List.sorted_insertionSort _ _, ?_, ?_⟩
  · exact ((List.perm_insertionSort _ _).nodup_iff).mpr (List.nodup_dedup _)
  · intro k
    rw [List.mem_insertionSort, List.mem_dedup, List.mem_append]

/-- Claim C3: a date carrying a reading log but no summary row appears
in the output with all stack-completion booleans false,
`hasReadingLog = true`, and rating `partial`. -/
theorem reading_only_day_partial (parse : String → Option JSDate)
    (rows : List SummaryRow) (logs : List String) (k : String)
    (hmem : k ∈ readingLogDates parse logs)
    (hnot : k ∉ (summariesMap parse (readingLogDates parse logs) rows).map Prod.fst) :
    ∃ d ∈ buildHistory parse rows logs,
      d.date = k ∧ d.rating = some ("partial") ∧
      d.morningStackComplete = false ∧ d.eveningStackComplete = false ∧
      d.hasReadingLog = true := by
  have hlookup : mapLookup (summariesMap parse (readingLogDates parse logs) rows) k
      = none := by
    have hf : (summariesMap parse (readingLogDates parse logs) rows).reverse.find?
        (fun p => p.1 == k) = none := by
      rw [List.find?_eq_none]
      intro p hp
      rw [List.mem_reverse] at hp
      simp only [beq_iff_eq]
      intro hpk
      exact hnot (List.mem_map.mpr ⟨p, hp, hpk⟩)
    unfold mapLookup
    rw [hf]
    rfl
  have hks : k ∈ allDatesSorted
      (summariesMap parse (readingLogDates parse logs) rows)
      (readingLogDates parse logs) := by
    unfold allDatesSorted
    rw [List.mem_insertionSort, List.mem_dedup, List.mem_append]
    exact Or.inr hmem
  refine ⟨applyDerivedRating (readingOnlyRecord k), ?_, rfl, rfl, rfl, rfl, rfl⟩
  unfold buildHistory combinedData
  refine List.mem_map_of_mem _ ?_
  refine List.mem_map.mpr ⟨k, hks, ?_⟩
  show (match mapLookup (summariesMap parse (readingLogDates parse logs) rows) k with
    | some dd => dd
    | none => readingOnlyRecord k) = readingOnlyRecord k
  rw [hlookup]

/-- Witness for C3: a reading log on 2026-01-02 with no summary rows. -/
theorem reading_only_day_partial_witness :
    ∃ d ∈ buildHistory (fun _ => none) [] ["2026-01-02"],
      d.date = "2026-01-02" ∧ d.rating = some ("partial") ∧
      d.morningStackComplete = false ∧ d.eveningStackComplete = false ∧
      d.hasReadingLog = true :=
  reading_only_day_partial (fun _ => none) [] ["2026-01-02"] "2026-01-02"
    (by decide) (by decide)

/-- Counterexample to claim C4 as stated: a summary row whose date is
malformed (fails the `YYYY-MM-DD` test and is unparseable) is not
skipped — it still contributes a record, keyed by the unnormalized
string. -/
theorem malformed_date_skip_counterexample :
    isYYYYMMDD ("not-a-date") = false ∧
    (buildHistory (fun _ => none)
        [{ date := "not-a-date", day_rating := none, meeting_mode := none,
           morning_stack_complete := none, evening_stack_complete := none }]
        []).map DayData.date = ["not-a-date"] := by
  exact ⟨by decide, rfl⟩

/-- Claim C4 as amended: a date that cannot be normalized is passed
through unmodified, and every summary row — malformed date or not —
contributes a record keyed by its (possibly unnormalized) date, while
the merge of all rows completes. -/
theorem malformed_date_passthrough (parse : String → Option JSDate)
    (rows : List SummaryRow) (logs : List String) (row : SummaryRow) (s : String)
    (hrow : row ∈ rows) (hbad : isYYYYMMDD s = false) (hparse : parse s = none) :
    normalizeToYYYYMMDD parse (.str s) = s ∧
    ∃ d ∈ buildHistory parse rows logs,
      d.date = normalizeToYYYYMMDD parse (.str row.date) := by
  constructor
  · simp [normalizeToYYYYMMDD, hbad, hparse]
  · have hk : normalizeToYYYYMMDD parse (.str row.date)
        ∈ (summariesMap parse (readingLogDates parse logs) rows).map Prod.fst := by
      unfold summariesMap
      rw [List.map_map]
      exact List.mem_map_of_mem _ hrow
    have hks : normalizeToYYYYMMDD parse (.str row.date)
        ∈ (buildHistory parse rows logs).map DayData.date := by
      rw [buildHistory_dates]
      unfold allDatesSorted
      rw [List.mem_insertionSort, List.mem_dedup, List.mem_append]
      exact Or.inl hk
    rw [List.mem_map] at hks
    obtain ⟨d, hd, hdk⟩ := hks
    exact ⟨d, hd, hdk⟩

/-- Witness for the amended C4 on a concrete malformed date. -/
theorem malformed_date_passthrough_witness :
    normalizeToYYYYMMDD (fun _ => none) (.str ("not-a-date")) = "not-a-date" ∧
    ∃ d ∈ buildHistory (fun _ => none)
        [{ date := "not-a-date", day_rating := none, meeting_mode := none,
           morning_stack_complete := none, evening_stack_complete := none }] [],
      d.date = normalizeToYYYYMMDD (fun _ => none) (.str ("not-a-date")) :=
  malformed_date_passthrough (fun _ => none)
    [{ date := "not-a-date", day_rating := none, meeting_mode := none,
       morning_stack_complete := none, evening_stack_complete := none }] []
    { date := "not-a-date", day_rating := none, meeting_mode := none,
      morning_stack_complete := none, evening_stack_complete := none }
    "not-a-date" (List.mem_singleton.mpr rfl) (by decide) rfl

end AtomicLife
